import Mathlib

/-!
Shallow embedding of the feedback-loop workflow core of
src/fg_analysis_feedback_loop.py.

The program keeps a mutable shared context dictionary and a set of tool
functions that each take the context, mutate some keys, and return a
SwarmResult carrying the updated context (and, for finalize_analysis, an
explicit next-agent override).  We embed the context as a structure whose
fields are the dictionary keys, the pydantic payloads (AnalysisDraft,
FeedbackCollection, RevisedAnalysis, FinalAnalysis) as structures whose
model_dump is an association list of field name to field value (matching
the Python dicts stored in the context), and each tool function as a pure
Lean function from its arguments and the input context to a SwarmResult.
File reads in read_data are modelled by a filesystem parameter mapping a
path to Option String; a missing file makes read_data fail, returning the
context as it stood at the failure point (the open call raises before any
further mutation).
-/

/-- Document stage tracking for the feedback loop (class DocumentStage). -/
inductive DocumentStage where
  | analysis
  | review
  | revision
  | final
deriving DecidableEq, Repr

/-- One feedback item (class FeedbackItem): feedback text, severity,
optional recommendation. -/
structure FeedbackItem where
  feedback : String
  severity : String
  recommendation : Option String
deriving DecidableEq, Repr

/-- A value stored in one of the document dictionaries kept in the context:
the Python dicts produced by model_dump hold strings, string lists,
optional string lists, booleans and lists of feedback items. -/
inductive FieldVal where
  | str : String → FieldVal
  | strList : List String → FieldVal
  | optStrList : Option (List String) → FieldVal
  | bool : Bool → FieldVal
  | itemList : List FeedbackItem → FieldVal
deriving DecidableEq, Repr

/-- A Python dict as stored in the document slots of the context:
an association list from key to value, in insertion order. -/
abbrev Dict : Type := List (String × FieldVal)

/-- The swarm agents declared in the source file. -/
inductive Agent where
  | ingestion_agent
  | drafting_agent
  | review_agent
  | revision_agent
  | finalization_agent
  | report_recorder_agent
  | user
deriving DecidableEq, Repr

/-- The shared context dictionary (shared_context).  Keys present in the
initial dictionary are plain fields; the keys fg_transcripts,
fg_objectives and final_analysis have no initial default and are only
created later by read_data and finalize_analysis, so they are Option
fields initialised to none. -/
structure Context where
  loop_started : Bool
  current_iteration : Nat
  max_iterations : Nat
  iteration_needed : Bool
  current_stage : DocumentStage
  focus_group_transcripts : String
  focus_group_objectives : String
  analysis_draft : Dict
  feedback_collection : Dict
  revised_analysis : Dict
  final_report : Dict
  fg_transcripts : Option String
  fg_objectives : Option String
  final_analysis : Option Dict
  has_error : Bool
  error_message : String
  error_stage : String
deriving DecidableEq, Repr

/-- The initial shared context literal of the source. -/
def shared_context : Context :=
  { loop_started := false
    current_iteration := 0
    max_iterations := 3
    iteration_needed := true
    current_stage := DocumentStage.analysis
    focus_group_transcripts := ""
    focus_group_objectives := ""
    analysis_draft := []
    feedback_collection := []
    revised_analysis := []
    final_report := []
    fg_transcripts := none
    fg_objectives := none
    final_analysis := none
    has_error := false
    error_message := ""
    error_stage := "" }

/-- The result returned by a tool function (class SwarmResult): a values
string, the updated context, and an optional explicit next agent. -/
structure SwarmResult where
  values : String
  context_variables : Context
  agent : Option Agent
deriving Repr

/-- Analysis draft payload (class AnalysisDraft). -/
structure AnalysisDraft where
  title : String
  content : String
deriving DecidableEq, Repr

/-- model_dump of AnalysisDraft: the dict with keys title and content. -/
def AnalysisDraft.model_dump (d : AnalysisDraft) : Dict :=
  [("title", FieldVal.str d.title), ("content", FieldVal.str d.content)]

/-- Feedback payload (class FeedbackCollection). -/
structure FeedbackCollection where
  items : List FeedbackItem
  overall_assessment : String
  priority_issues : List String
  iteration_needed : Bool
deriving DecidableEq, Repr

/-- model_dump of FeedbackCollection. -/
def FeedbackCollection.model_dump (f : FeedbackCollection) : Dict :=
  [("items", FieldVal.itemList f.items),
   ("overall_assessment", FieldVal.str f.overall_assessment),
   ("priority_issues", FieldVal.strList f.priority_issues),
   ("iteration_needed", FieldVal.bool f.iteration_needed)]

/-- Revised analysis payload (class RevisedAnalysis). -/
structure RevisedAnalysis where
  title : String
  content : String
  changes_made : Option (List String)
deriving DecidableEq, Repr

/-- model_dump of RevisedAnalysis: includes the changes_made field. -/
def RevisedAnalysis.model_dump (r : RevisedAnalysis) : Dict :=
  [("title", FieldVal.str r.title), ("content", FieldVal.str r.content),
   ("changes_made", FieldVal.optStrList r.changes_made)]

/-- Final analysis payload (class FinalAnalysis). -/
structure FinalAnalysis where
  title : String
  content : String
deriving DecidableEq, Repr

/-- model_dump of FinalAnalysis. -/
def FinalAnalysis.model_dump (f : FinalAnalysis) : Dict :=
  [("title", FieldVal.str f.title), ("content", FieldVal.str f.content)]

/-- read_data: reads data/transcripts.md and data/objectives.md from the
filesystem fs, stores them under fg_transcripts and fg_objectives, sets
loop_started, current_stage and current_iteration, and returns a
SwarmResult.  A missing file raises: we return Except.error carrying the
context as mutated so far (the open call raises before later writes). -/
def read_data (fs : String → Option String) (context_variables : Context) :
    Except Context SwarmResult :=
  match fs "data/transcripts.md" with
  | none => Except.error context_variables
  | some transcripts =>
    let cv1 := { context_variables with fg_transcripts := some transcripts }
    match fs "data/objectives.md" with
    | none => Except.error cv1
    | some objectives =>
      let cv2 := { cv1 with
        fg_objectives := some objectives
        loop_started := true
        current_stage := DocumentStage.analysis
        current_iteration := 1 }
      Except.ok
        { values := "Read transcripts and objectives, and started the analysis feedback loop."
          context_variables := cv2
          agent := none }

/-- submit_analysis_draft: stores the draft dict under analysis_draft and
moves the stage to review. -/
def submit_analysis_draft (title content : String)
    (context_variables : Context) : SwarmResult :=
  let analysis_draft : AnalysisDraft := { title := title, content := content }
  let cv := { context_variables with
    analysis_draft := analysis_draft.model_dump
    current_stage := DocumentStage.review }
  { values := "Analysis draft submitted. Moving to review stage."
    context_variables := cv
    agent := none }

/-- submit_feedback: stores the feedback dict under feedback_collection,
copies its iteration_needed flag into the context, and moves the stage to
revision. -/
def submit_feedback (items : List FeedbackItem) (overall_assessment : String)
    (priority_issues : List String) (iteration_needed : Bool)
    (context_variables : Context) : SwarmResult :=
  let feedback : FeedbackCollection :=
    { items := items
      overall_assessment := overall_assessment
      priority_issues := priority_issues
      iteration_needed := iteration_needed }
  let cv := { context_variables with
    feedback_collection := feedback.model_dump
    iteration_needed := feedback.iteration_needed
    current_stage := DocumentStage.revision }
  { values := "Feedback submitted. Moving to revision stage."
    context_variables := cv
    agent := none }

/-- submit_revised_analysis: stores the revision dict under
revised_analysis; then, if iteration_needed and
current_iteration < max_iterations, increments current_iteration,
moves the stage back to review and overwrites analysis_draft with the
title and content of the revision; otherwise moves the stage to final. -/
def submit_revised_analysis (title content : String)
    (changes_made : Option (List String))
    (context_variables : Context) : SwarmResult :=
  let revised : RevisedAnalysis :=
    { title := title, content := content, changes_made := changes_made }
  let cv := { context_variables with revised_analysis := revised.model_dump }
  if cv.iteration_needed ∧ cv.current_iteration < cv.max_iterations then
    let cv2 := { cv with
      current_iteration := cv.current_iteration + 1
      current_stage := DocumentStage.review
      analysis_draft :=
        [("title", FieldVal.str revised.title),
         ("content", FieldVal.str revised.content)] }
    { values := "Analysis revised. Starting iteration " ++
        toString cv2.current_iteration ++ " with another review."
      context_variables := cv2
      agent := none }
  else
    let cv2 := { cv with current_stage := DocumentStage.final }
    { values := "Revisions complete. Moving to document finalization."
      context_variables := cv2
      agent := none }

/-- finalize_analysis: stores the final dict under final_analysis, clears
iteration_needed, and explicitly designates report_recorder_agent as the
next agent in its SwarmResult. -/
def finalize_analysis (title content : String)
    (context_variables : Context) : SwarmResult :=
  let final : FinalAnalysis := { title := title, content := content }
  let cv := { context_variables with
    final_analysis := some final.model_dump
    iteration_needed := false }
  { values := "Analysis finalized. Feedback loop complete."
    context_variables := cv
    agent := some Agent.report_recorder_agent }

/-- One workflow operation: a tool call with its arguments.  read_data
carries the filesystem it reads from; write_report_to_file carries its
text arguments (its SwarmResult returns an empty context_variables dict,
so it makes no context update). -/
inductive Op where
  | readData (fs : String → Option String)
  | submitAnalysisDraft (title content : String)
  | submitFeedback (items : List FeedbackItem) (overall_assessment : String)
      (priority_issues : List String) (iteration_needed : Bool)
  | submitRevisedAnalysis (title content : String)
      (changes_made : Option (List String))
  | finalizeAnalysis (title content : String)
  | writeReportToFile (report filename : String)

/-- Whether an operation is the read_data tool call. -/
def Op.isReadData : Op → Bool
  | Op.readData _ => true
  | _ => false

/-- Effect of one operation on the shared context.  A failing read_data
leaves the context as mutated up to the failure point.
write_report_to_file returns context_variables as an empty dict, hence no
context update. -/
def applyOp (op : Op) (c : Context) : Context :=
  match op with
  | Op.readData fs =>
    match read_data fs c with
    | Except.error c1 => c1
    | Except.ok r => r.context_variables
  | Op.submitAnalysisDraft t ct => (submit_analysis_draft t ct c).context_variables
  | Op.submitFeedback its oa pi need =>
    (submit_feedback its oa pi need c).context_variables
  | Op.submitRevisedAnalysis t ct cm =>
    (submit_revised_analysis t ct cm c).context_variables
  | Op.finalizeAnalysis t ct => (finalize_analysis t ct c).context_variables
  | Op.writeReportToFile _ _ => c

/-- Run a list of operations in order from a starting context. -/
def run : List Op → Context → Context
  | [], c => c
  | op :: ops, c => run ops (applyOp op c)

/-- A list of operations that does not invoke read_data (the post-ingestion
part of a run: read_data runs exactly once, first, and no handoff edge
targets the ingestion agent again). -/
def ReadDataFree (ops : List Op) : Prop :=
  ∀ op ∈ ops, op.isReadData = false

/-- The branch outcomes of the revision submissions along a run: for each
submit_revised_analysis call, in order, whether its loop-edge condition
(iteration_needed and current_iteration < max_iterations) held in the
context it was applied to.  true is the loop edge back to review, false
the transition to final. -/
def branchOutcomes : List Op → Context → List Bool
  | [], _ => []
  | op :: ops, c =>
    match op with
    | Op.submitRevisedAnalysis _ _ _ =>
      (c.iteration_needed && decide (c.current_iteration < c.max_iterations))
        :: branchOutcomes ops (applyOp op c)
    | _ => branchOutcomes ops (applyOp op c)

/-- A guard-based transition rule (OnContextCondition): a boolean guard
over the context and a target agent. -/
structure TransitionRule where
  guard : Context → Bool
  target : Agent

/-- Modelled from the spec: the next-executor resolution of the swarm
framework is not part of src/ (it lives in the autogen library); section
4.5 of the spec states that an explicit override in the returned
ToolResult takes precedence over TransitionRule evaluation, which is
first-match-wins over the post-update context, with a fallback when no
guard matches. -/
def resolveNext (r : SwarmResult) (rules : List TransitionRule)
    (fallback : Agent) : Agent :=
  match r.agent with
  | some a => a
  | none =>
    match rules.find? (fun rule => rule.guard r.context_variables) with
    | some rule => rule.target
    | none => fallback

/-- A filesystem on which every path exists with content text, used to
evaluate runs on concrete inputs. -/
def fsAll : String → Option String := fun _ => some "text"

/-- A filesystem on which no path exists: read_data fails at its first
open call. -/
def fsNone : String → Option String := fun _ => none

/-- A concrete operation sequence: ingestion, then a review demanding
another iteration, then a revision submission (which takes the loop
edge and increments current_iteration to 2). -/
def opsToSecondIteration : List Op :=
  [Op.readData fsAll,
   Op.submitFeedback [] "needs work" [] true,
   Op.submitRevisedAnalysis "t" "c" none]

/-- The context reached by opsToSecondIteration from shared_context. -/
def ctxSecondIteration : Context := run opsToSecondIteration shared_context

/-- A concrete post-ingestion context: shared_context with
current_iteration already set to 1. -/
def ctxIterOne : Context := { shared_context with current_iteration := 1 }

/-- A concrete post-ingestion context with the iteration ceiling set to
one: current_iteration 1 and max_iterations 1, iteration_needed still
true. -/
def ctxMaxOne : Context :=
  { shared_context with current_iteration := 1, max_iterations := 1 }

/-- Three consecutive revision submissions, a read_data-free operation
sequence with three branch outcomes. -/
def opsThreeRevisions : List Op :=
  [Op.submitRevisedAnalysis "r1" "c1" none,
   Op.submitRevisedAnalysis "r2" "c2" none,
   Op.submitRevisedAnalysis "r3" "c3" none]

/-! ## Theorems -/

theorem run_append (ops1 ops2 : List Op) (c : Context) :
    run (ops1 ++ ops2) c = run ops2 (run ops1 c) := by
  induction ops1 generalizing c with
  | nil => rfl
  | cons op ops ih => simp [run, ih]

/-- C1: submit_revised_analysis stores the submitted revision under
revised_analysis in both branches; when iteration_needed is set and
current_iteration < max_iterations it increments current_iteration by
exactly one, overwrites analysis_draft with the title and content pair of
the revision and sets the stage to review; otherwise it sets the stage to
final (leaving current_iteration and analysis_draft unchanged). -/
theorem revision_submission_behavior (t ct : String) (cm : Option (List String))
    (c : Context) :
    ((submit_revised_analysis t ct cm c).context_variables).revised_analysis =
      RevisedAnalysis.model_dump { title := t, content := ct, changes_made := cm } ∧
    (c.iteration_needed = true ∧ c.current_iteration < c.max_iterations →
      ((submit_revised_analysis t ct cm c).context_variables).current_iteration =
        c.current_iteration + 1 ∧
      ((submit_revised_analysis t ct cm c).context_variables).analysis_draft =
        [("title", FieldVal.str t), ("content", FieldVal.str ct)] ∧
      ((submit_revised_analysis t ct cm c).context_variables).current_stage =
        DocumentStage.review) ∧
    (¬ (c.iteration_needed = true ∧ c.current_iteration < c.max_iterations) →
      ((submit_revised_analysis t ct cm c).context_variables).current_stage =
        DocumentStage.final ∧
      ((submit_revised_analysis t ct cm c).context_variables).current_iteration =
        c.current_iteration ∧
      ((submit_revised_analysis t ct cm c).context_variables).analysis_draft =
        c.analysis_draft) := by
  by_cases h : c.iteration_needed = true ∧ c.current_iteration < c.max_iterations
  · simp [submit_revised_analysis, RevisedAnalysis.model_dump, h]
  · simp [submit_revised_analysis, RevisedAnalysis.model_dump, h]

/-- Witness for C1 at concrete inputs: from shared_context (where
iteration_needed holds and 0 < 3) the loop branch applies, and from the
same context with iteration_needed cleared the final branch applies. -/
theorem revision_submission_behavior_witness :
    ((submit_revised_analysis "t2" "c2" none shared_context).context_variables).current_iteration = 1 ∧
    ((submit_revised_analysis "t2" "c2" none shared_context).context_variables).current_stage =
      DocumentStage.review ∧
    ((submit_revised_analysis "t2" "c2" none
        { shared_context with iteration_needed := false }).context_variables).current_stage =
      DocumentStage.final := by
  have h1 := (revision_submission_behavior "t2" "c2" none shared_context).2.1
    ⟨rfl, by decide⟩
  have h2 := (revision_submission_behavior "t2" "c2" none
    { shared_context with iteration_needed := false }).2.2 (by decide)
  exact ⟨h1.1, h1.2.2, h2.1⟩

/-- C4: after a submit_feedback call whose iteration_needed argument is
false, the next submit_revised_analysis call sets the stage to final,
for every value of current_iteration and max_iterations in the context. -/
theorem iteration_not_needed_goes_final (items : List FeedbackItem)
    (oa : String) (pi : List String) (t ct : String)
    (cm : Option (List String)) (c : Context) :
    ((submit_revised_analysis t ct cm
        ((submit_feedback items oa pi false c).context_variables)).context_variables).current_stage =
      DocumentStage.final := by
  simp [submit_feedback, submit_revised_analysis]

/-- C5: whenever submit_revised_analysis takes the loop edge back to
review (iteration_needed set and current_iteration < max_iterations), the
stored analysis_draft equals exactly the dict with the title and content
of the revision just submitted: its keys are title and content only, and
in particular it carries no changes_made key. -/
theorem loop_edge_roundtrip (t ct : String) (cm : Option (List String))
    (c : Context) (h1 : c.iteration_needed = true)
    (h2 : c.current_iteration < c.max_iterations) :
    ((submit_revised_analysis t ct cm c).context_variables).analysis_draft =
      [("title", FieldVal.str t), ("content", FieldVal.str ct)] ∧
    (((submit_revised_analysis t ct cm c).context_variables).analysis_draft).map Prod.fst =
      ["title", "content"] ∧
    "changes_made" ∉
      (((submit_revised_analysis t ct cm c).context_variables).analysis_draft).map Prod.fst := by
  simp [submit_revised_analysis, h1, h2]

/-- Witness for C5 at a concrete input: shared_context satisfies both
hypotheses of the loop-edge condition. -/
theorem loop_edge_roundtrip_witness :
    ((submit_revised_analysis "t" "c" (some ["x"]) shared_context).context_variables).analysis_draft =
      [("title", FieldVal.str "t"), ("content", FieldVal.str "c")] ∧
    "changes_made" ∉
      (((submit_revised_analysis "t" "c" (some ["x"]) shared_context).context_variables).analysis_draft).map Prod.fst := by
  have h := loop_edge_roundtrip "t" "c" (some ["x"]) shared_context rfl (by decide)
  exact ⟨h.1, h.2.2⟩

/-- C7: every submit_revised_analysis call sets the stage to exactly one
of review and final: afterwards the stage is review or final, never both,
and the review outcome holds exactly when the loop-edge condition held
(so the final outcome holds exactly otherwise). -/
theorem revision_exactly_one_branch (t ct : String) (cm : Option (List String))
    (c : Context) :
    (((submit_revised_analysis t ct cm c).context_variables).current_stage =
        DocumentStage.review ∨
      ((submit_revised_analysis t ct cm c).context_variables).current_stage =
        DocumentStage.final) ∧
    ¬ (((submit_revised_analysis t ct cm c).context_variables).current_stage =
          DocumentStage.review ∧
        ((submit_revised_analysis t ct cm c).context_variables).current_stage =
          DocumentStage.final) ∧
    (((submit_revised_analysis t ct cm c).context_variables).current_stage =
        DocumentStage.review ↔
      (c.iteration_needed = true ∧ c.current_iteration < c.max_iterations)) ∧
    (((submit_revised_analysis t ct cm c).context_variables).current_stage =
        DocumentStage.final ↔
      ¬ (c.iteration_needed = true ∧ c.current_iteration < c.max_iterations)) := by
  by_cases h : c.iteration_needed = true ∧ c.current_iteration < c.max_iterations
  · simp [submit_revised_analysis, h]
  · simp [submit_revised_analysis, h]

theorem applyOp_max_iterations (op : Op) (c : Context) :
    (applyOp op c).max_iterations = c.max_iterations := by
  cases op with
  | readData fs =>
    rcases hT : fs "data/transcripts.md" with _ | t
    · simp [applyOp, read_data, hT]
    · rcases hO : fs "data/objectives.md" with _ | o
      · simp [applyOp, read_data, hT, hO]
      · simp [applyOp, read_data, hT, hO]
  | submitAnalysisDraft t ct => rfl
  | submitFeedback its oa pi need => rfl
  | submitRevisedAnalysis t ct cm =>
    by_cases h : c.iteration_needed = true ∧ c.current_iteration < c.max_iterations
    · simp [applyOp, submit_revised_analysis, h]
    · simp [applyOp, submit_revised_analysis, h]
  | finalizeAnalysis t ct => rfl
  | writeReportToFile r f => rfl

theorem applyOp_iter_nondec (op : Op) (c : Context) (h : op.isReadData = false) :
    c.current_iteration ≤ (applyOp op c).current_iteration := by
  cases op with
  | readData fs => simp [Op.isReadData] at h
  | submitAnalysisDraft t ct => exact Nat.le_refl _
  | submitFeedback its oa pi need => exact Nat.le_refl _
  | submitRevisedAnalysis t ct cm =>
    by_cases hb : c.iteration_needed = true ∧ c.current_iteration < c.max_iterations
    · simp [applyOp, submit_revised_analysis, hb]
    · simp [applyOp, submit_revised_analysis, hb]
  | finalizeAnalysis t ct => exact Nat.le_refl _
  | writeReportToFile r f => exact Nat.le_refl _

theorem applyOp_inv (op : Op) (c : Context) (h1 : 1 ≤ c.max_iterations)
    (h2 : c.current_iteration ≤ c.max_iterations) :
    (applyOp op c).current_iteration ≤ (applyOp op c).max_iterations := by
  cases op with
  | readData fs =>
    rcases hT : fs "data/transcripts.md" with _ | t
    · simpa [applyOp, read_data, hT] using h2
    · rcases hO : fs "data/objectives.md" with _ | o
      · simpa [applyOp, read_data, hT, hO] using h2
      · simpa [applyOp, read_data, hT, hO] using h1
  | submitAnalysisDraft t ct => exact h2
  | submitFeedback its oa pi need => exact h2
  | submitRevisedAnalysis t ct cm =>
    by_cases hb : c.iteration_needed = true ∧ c.current_iteration < c.max_iterations
    · simp only [applyOp]
      simp [submit_revised_analysis, hb]
      omega
    · simpa [applyOp, submit_revised_analysis, hb] using h2
  | finalizeAnalysis t ct => exact h2
  | writeReportToFile r f => exact h2

theorem run_inv (ops : List Op) (c : Context) (h1 : 1 ≤ c.max_iterations)
    (h2 : c.current_iteration ≤ c.max_iterations) :
    1 ≤ (run ops c).max_iterations ∧
    (run ops c).current_iteration ≤ (run ops c).max_iterations := by
  induction ops generalizing c with
  | nil => exact ⟨h1, h2⟩
  | cons op ops ih =>
    have hm := applyOp_max_iterations op c
    exact ih (applyOp op c) (by rw [hm]; exact h1) (applyOp_inv op c h1 h2)

theorem run_iter_nondec (ops : List Op) (c : Context) (h : ReadDataFree ops) :
    c.current_iteration ≤ (run ops c).current_iteration := by
  induction ops generalizing c with
  | nil => exact Nat.le_refl _
  | cons op ops ih =>
    have hop : op.isReadData = false := h op (List.mem_cons_self op ops)
    have htl : ReadDataFree ops := fun o ho => h o (List.mem_cons_of_mem op ho)
    exact Nat.le_trans (applyOp_iter_nondec op c hop) (ih (applyOp op c) htl)

/-- C2 counterexample: the claim quantifies over executions of the
operations in any order, and read_data is an operation that sets
current_iteration to 1.  After the run ingestion, feedback
(iteration_needed), revision (loop edge, current_iteration becomes 2),
invoking read_data again strictly decreases current_iteration from 2 to
1, so current_iteration is not monotonically non-decreasing across every
operation in every order. -/
theorem iteration_monotonicity_counterexample :
    ctxSecondIteration.current_iteration = 2 ∧
    (applyOp (Op.readData fsAll) ctxSecondIteration).current_iteration = 1 ∧
    ¬ ctxSecondIteration.current_iteration ≤
        (applyOp (Op.readData fsAll) ctxSecondIteration).current_iteration := by
  refine ⟨?_, ?_, ?_⟩ <;> decide

/-- C2 amended: starting from any context with max_iterations at least 1
and current_iteration at most max_iterations (the initial context has 0
and 3), current_iteration never exceeds max_iterations at any time of any
operation order — in particular whenever the stage is review or revision;
and every operation other than read_data leaves current_iteration
non-decreasing, so any execution that does not re-invoke read_data is
monotonically non-decreasing; read_data itself sets current_iteration to
1 when it succeeds and leaves it unchanged when it fails. -/
theorem iteration_bound_and_monotonicity :
    (∀ c : Context, 1 ≤ c.max_iterations → c.current_iteration ≤ c.max_iterations →
      ∀ ops : List Op, (run ops c).current_iteration ≤ (run ops c).max_iterations) ∧
    (∀ (op : Op) (c : Context), op.isReadData = false →
      c.current_iteration ≤ (applyOp op c).current_iteration) ∧
    (∀ (ops : List Op) (c : Context), ReadDataFree ops →
      c.current_iteration ≤ (run ops c).current_iteration) ∧
    (∀ (fs : String → Option String) (c : Context),
      (applyOp (Op.readData fs) c).current_iteration = 1 ∨
      (applyOp (Op.readData fs) c).current_iteration = c.current_iteration) := by
  refine ⟨fun c h1 h2 ops => (run_inv ops c h1 h2).2, applyOp_iter_nondec,
    run_iter_nondec, fun fs c => ?_⟩
  rcases hT : fs "data/transcripts.md" with _ | t
  · right
    simp [applyOp, read_data, hT]
  · rcases hO : fs "data/objectives.md" with _ | o
    · right
      simp [applyOp, read_data, hT, hO]
    · left
      simp [applyOp, read_data, hT, hO]

/-- Witness for the amended C2 at concrete inputs: the bound holds along
a concrete three-operation run from shared_context, and a concrete
read_data-free run does not decrease current_iteration. -/
theorem iteration_bound_and_monotonicity_witness :
    1 ≤ shared_context.max_iterations ∧
    shared_context.current_iteration ≤ shared_context.max_iterations ∧
    (run opsToSecondIteration shared_context).current_iteration ≤
      (run opsToSecondIteration shared_context).max_iterations ∧
    ReadDataFree [Op.submitFeedback [] "f" [] true] ∧
    shared_context.current_iteration ≤
      (run [Op.submitFeedback [] "f" [] true] shared_context).current_iteration := by
  have hfree : ReadDataFree [Op.submitFeedback [] "f" [] true] := by
    intro op hop
    simp only [List.mem_singleton] at hop
    subst hop
    rfl
  exact ⟨by decide, by decide,
    iteration_bound_and_monotonicity.1 shared_context (by decide) (by decide)
      opsToSecondIteration,
    hfree,
    iteration_bound_and_monotonicity.2.2.1 [Op.submitFeedback [] "f" [] true]
      shared_context hfree⟩

theorem applyOp_revised_iter_of_cond (t ct : String) (cm : Option (List String))
    (c : Context)
    (hb : c.iteration_needed = true ∧ c.current_iteration < c.max_iterations) :
    (applyOp (Op.submitRevisedAnalysis t ct cm) c).current_iteration =
      c.current_iteration + 1 := by
  simp [applyOp, submit_revised_analysis, hb]

theorem applyOp_revised_iter_of_not_cond (t ct : String)
    (cm : Option (List String)) (c : Context)
    (hb : ¬ (c.iteration_needed = true ∧ c.current_iteration < c.max_iterations)) :
    (applyOp (Op.submitRevisedAnalysis t ct cm) c).current_iteration =
      c.current_iteration := by
  simp [applyOp, submit_revised_analysis, hb]

theorem branchOutcomes_count_le (ops : List Op) (c : Context)
    (h : ReadDataFree ops) :
    (branchOutcomes ops c).count true ≤
      c.max_iterations - c.current_iteration := by
  induction ops generalizing c with
  | nil => simp [branchOutcomes]
  | cons op ops ih =>
    have hop : op.isReadData = false := h op (List.mem_cons_self op ops)
    have htl : ReadDataFree ops := fun o ho => h o (List.mem_cons_of_mem op ho)
    have hmax := applyOp_max_iterations op c
    cases op with
    | readData fs => simp [Op.isReadData] at hop
    | submitRevisedAnalysis t ct cm =>
      by_cases hb : c.iteration_needed = true ∧
          c.current_iteration < c.max_iterations
      · have hhead : (c.iteration_needed &&
            decide (c.current_iteration < c.max_iterations)) = true := by
          simp [hb.1, hb.2]
        have hlt : c.current_iteration < c.max_iterations := hb.2
        have hiter := applyOp_revised_iter_of_cond t ct cm c hb
        have hrec := ih (applyOp (Op.submitRevisedAnalysis t ct cm) c) htl
        rw [hmax, hiter] at hrec
        simp only [branchOutcomes, hhead, List.count_cons]
        simp only [beq_self_eq_true, if_true]
        omega
      · have hhead : (c.iteration_needed &&
            decide (c.current_iteration < c.max_iterations)) = false := by
          cases hB : (c.iteration_needed &&
              decide (c.current_iteration < c.max_iterations)) with
          | false => rfl
          | true =>
            exact absurd
              (by simpa [Bool.and_eq_true, decide_eq_true_eq] using hB) hb
        have hiter := applyOp_revised_iter_of_not_cond t ct cm c hb
        have hrec := ih (applyOp (Op.submitRevisedAnalysis t ct cm) c) htl
        rw [hmax, hiter] at hrec
        simp only [branchOutcomes, hhead, List.count_cons]
        simp
        omega
    | submitAnalysisDraft t ct =>
      have hrec := ih (applyOp (Op.submitAnalysisDraft t ct) c) htl
      rw [hmax] at hrec
      simpa [branchOutcomes] using hrec
    | submitFeedback its oa pi need =>
      have hrec := ih (applyOp (Op.submitFeedback its oa pi need) c) htl
      rw [hmax] at hrec
      simpa [branchOutcomes] using hrec
    | finalizeAnalysis t ct =>
      have hrec := ih (applyOp (Op.finalizeAnalysis t ct) c) htl
      rw [hmax] at hrec
      simpa [branchOutcomes] using hrec
    | writeReportToFile r f =>
      have hrec := ih (applyOp (Op.writeReportToFile r f) c) htl
      rw [hmax] at hrec
      simpa [branchOutcomes] using hrec

/-- C3: over any post-ingestion run (read_data runs exactly once, first,
so the remaining operations never invoke it) starting with
current_iteration = 1: the loop edge of submit_revised_analysis fires at
most max_iterations - 1 times; if at least max_iterations revision
submissions occur then one of the first max_iterations of them takes the
final branch; and with max_iterations = 1 the first revision submission
sets the stage to final even when iteration_needed is true. -/
theorem loop_edge_bound :
    (∀ (ops : List Op) (c : Context), ReadDataFree ops →
      c.current_iteration = 1 →
      (branchOutcomes ops c).count true ≤ c.max_iterations - 1) ∧
    (∀ (ops : List Op) (c : Context), ReadDataFree ops →
      c.current_iteration = 1 → 1 ≤ c.max_iterations →
      c.max_iterations ≤ (branchOutcomes ops c).length →
      false ∈ (branchOutcomes ops c).take c.max_iterations) ∧
    (∀ (t ct : String) (cm : Option (List String)) (c : Context),
      c.current_iteration = 1 → c.max_iterations = 1 →
      ((submit_revised_analysis t ct cm c).context_variables).current_stage =
        DocumentStage.final) := by
  have hcount : ∀ (ops : List Op) (c : Context), ReadDataFree ops →
      c.current_iteration = 1 →
      (branchOutcomes ops c).count true ≤ c.max_iterations - 1 := by
    intro ops c hfree h1
    have := branchOutcomes_count_le ops c hfree
    rw [h1] at this
    exact this
  refine ⟨hcount, ?_, ?_⟩
  · intro ops c hfree h1 hmax hlen
    by_contra hf
    have hall : ∀ b ∈ (branchOutcomes ops c).take c.max_iterations,
        b = true := by
      intro b hb
      cases b
      · exact absurd hb hf
      · rfl
    have heq : ((branchOutcomes ops c).take c.max_iterations).count true =
        ((branchOutcomes ops c).take c.max_iterations).length := by
      rw [List.count_eq_length]
      intro b hb
      exact (hall b hb).symm
    have hlen2 : ((branchOutcomes ops c).take c.max_iterations).length =
        c.max_iterations := by
      rw [List.length_take]
      omega
    have hsub : ((branchOutcomes ops c).take c.max_iterations).count true ≤
        (branchOutcomes ops c).count true :=
      (List.take_sublist _ _).count_le true
    have hc := hcount ops c hfree h1
    omega
  · intro t ct cm c h1 h2
    have hnot : ¬ (c.iteration_needed = true ∧
        c.current_iteration < c.max_iterations) := by
      rintro ⟨_, hlt⟩
      rw [h1, h2] at hlt
      exact Nat.lt_irrefl 1 hlt
    simp [submit_revised_analysis, hnot]

/-- Witness for C3 at concrete inputs: three consecutive revision
submissions from a context with current_iteration 1 and max_iterations 3
fire the loop edge at most twice and take the final branch within the
first three outcomes; and from a context with max_iterations 1 and
iteration_needed still true, the first revision submission goes final. -/
theorem loop_edge_bound_witness :
    (branchOutcomes opsThreeRevisions ctxIterOne).count true ≤ 2 ∧
    false ∈ (branchOutcomes opsThreeRevisions ctxIterOne).take 3 ∧
    ((submit_revised_analysis "t" "c" none ctxMaxOne).context_variables).current_stage =
      DocumentStage.final := by
  have hfree : ReadDataFree opsThreeRevisions := by
    intro op hop
    fin_cases hop <;> rfl
  exact ⟨loop_edge_bound.1 opsThreeRevisions ctxIterOne hfree rfl,
    loop_edge_bound.2.1 opsThreeRevisions ctxIterOne hfree rfl (by decide)
      (by decide),
    loop_edge_bound.2.2 "t" "c" none ctxMaxOne rfl rfl⟩

/-- C6: finalize_analysis stores the submitted title and content dict
under final_analysis, clears iteration_needed to false, and its
SwarmResult explicitly names report_recorder_agent as the next agent; in
the next-executor resolution (modelled from the spec, the swarm framework
itself is not part of src/) that explicit designation takes precedence
over any guard-based transition rules and any fallback. -/
theorem finalize_override_routing (t ct : String) (c : Context)
    (rules : List TransitionRule) (fallback : Agent) :
    ((finalize_analysis t ct c).context_variables).final_analysis =
      some (FinalAnalysis.model_dump { title := t, content := ct }) ∧
    ((finalize_analysis t ct c).context_variables).iteration_needed = false ∧
    (finalize_analysis t ct c).agent = some Agent.report_recorder_agent ∧
    resolveNext (finalize_analysis t ct c) rules fallback =
      Agent.report_recorder_agent :=
  ⟨rfl, rfl, rfl, rfl⟩

/-- C8 counterexample: submit_feedback performs no validation linking
iteration_needed to a non-empty items list.  The concrete call with an
empty items list and iteration_needed true is accepted: it returns
normally, stores the collection with empty items under
feedback_collection, copies iteration_needed true into the context and
moves the stage to revision. -/
theorem empty_feedback_accepted_counterexample :
    (submit_feedback [] "ok" [] true shared_context).context_variables.feedback_collection =
      [("items", FieldVal.itemList []),
       ("overall_assessment", FieldVal.str "ok"),
       ("priority_issues", FieldVal.strList []),
       ("iteration_needed", FieldVal.bool true)] ∧
    (submit_feedback [] "ok" [] true shared_context).context_variables.iteration_needed =
      true ∧
    (submit_feedback [] "ok" [] true shared_context).context_variables.current_stage =
      DocumentStage.revision ∧
    (submit_feedback [] "ok" [] true shared_context).values =
      "Feedback submitted. Moving to revision stage." :=
  ⟨rfl, rfl, rfl, rfl⟩

/-- C8 amended: submit_feedback enforces no non-emptiness requirement:
every submission, including one with iteration_needed true and an empty
items list, is accepted — the collection dict is stored under
feedback_collection, its iteration_needed flag is copied into the
context, and the stage is set to revision. -/
theorem submit_feedback_no_validation (items : List FeedbackItem)
    (oa : String) (pi : List String) (need : Bool) (c : Context) :
    (submit_feedback items oa pi need c).context_variables.feedback_collection =
      FeedbackCollection.model_dump
        { items := items, overall_assessment := oa,
          priority_issues := pi, iteration_needed := need } ∧
    (submit_feedback items oa pi need c).context_variables.iteration_needed =
      need ∧
    (submit_feedback items oa pi need c).context_variables.current_stage =
      DocumentStage.revision :=
  ⟨rfl, rfl, rfl⟩

/-- C9: the error fields are never populated by the workflow core: when
data/transcripts.md is missing, read_data fails with the context
untouched, so has_error, error_message and error_stage keep their initial
defaults (false and empty strings), and no workflow operation ever writes
any of the three error fields on any context. -/
theorem error_fields_never_set :
    read_data fsNone shared_context = Except.error shared_context ∧
    shared_context.has_error = false ∧
    shared_context.error_message = "" ∧
    shared_context.error_stage = "" ∧
    (∀ (op : Op) (c : Context),
      (applyOp op c).has_error = c.has_error ∧
      (applyOp op c).error_message = c.error_message ∧
      (applyOp op c).error_stage = c.error_stage) := by
  refine ⟨rfl, rfl, rfl, rfl, ?_⟩
  intro op c
  cases op with
  | readData fs =>
    rcases hT : fs "data/transcripts.md" with _ | t
    · simp [applyOp, read_data, hT]
    · rcases hO : fs "data/objectives.md" with _ | o
      · simp [applyOp, read_data, hT, hO]
      · simp [applyOp, read_data, hT, hO]
  | submitAnalysisDraft t ct => exact ⟨rfl, rfl, rfl⟩
  | submitFeedback its oa pi need => exact ⟨rfl, rfl, rfl⟩
  | submitRevisedAnalysis t ct cm =>
    by_cases hb : c.iteration_needed = true ∧
        c.current_iteration < c.max_iterations
    · simp [applyOp, submit_revised_analysis, hb]
    · simp [applyOp, submit_revised_analysis, hb]
  | finalizeAnalysis t ct => exact ⟨rfl, rfl, rfl⟩
  | writeReportToFile r f => exact ⟨rfl, rfl, rfl⟩

theorem applyOp_frame (op : Op) (c : Context) :
    (applyOp op c).focus_group_transcripts = c.focus_group_transcripts ∧
    (applyOp op c).focus_group_objectives = c.focus_group_objectives ∧
    (applyOp op c).final_report = c.final_report := by
  cases op with
  | readData fs =>
    rcases hT : fs "data/transcripts.md" with _ | t
    · simp [applyOp, read_data, hT]
    · rcases hO : fs "data/objectives.md" with _ | o
      · simp [applyOp, read_data, hT, hO]
      · simp [applyOp, read_data, hT, hO]
  | submitAnalysisDraft t ct => exact ⟨rfl, rfl, rfl⟩
  | submitFeedback its oa pi need => exact ⟨rfl, rfl, rfl⟩
  | submitRevisedAnalysis t ct cm =>
    by_cases hb : c.iteration_needed = true ∧
        c.current_iteration < c.max_iterations
    · simp [applyOp, submit_revised_analysis, hb]
    · simp [applyOp, submit_revised_analysis, hb]
  | finalizeAnalysis t ct => exact ⟨rfl, rfl, rfl⟩
  | writeReportToFile r f => exact ⟨rfl, rfl, rfl⟩

theorem run_frame (ops : List Op) (c : Context) :
    (run ops c).focus_group_transcripts = c.focus_group_transcripts ∧
    (run ops c).focus_group_objectives = c.focus_group_objectives ∧
    (run ops c).final_report = c.final_report := by
  induction ops generalizing c with
  | nil => exact ⟨rfl, rfl, rfl⟩
  | cons op ops ih =>
    have h1 := applyOp_frame op c
    have h2 := ih (applyOp op c)
    exact ⟨h2.1.trans h1.1, h2.2.1.trans h1.2.1, h2.2.2.trans h1.2.2⟩

/-- C10: the initial-context keys focus_group_transcripts,
focus_group_objectives and final_report are never written by any
operation and keep their initial values along every run from
shared_context; read_data stores the loaded texts under the distinct
keys fg_transcripts and fg_objectives (absent from the initial context,
modelled as none) and finalize_analysis stores its result under
final_analysis (also absent initially). -/
theorem frame_unused_keys :
    shared_context.focus_group_transcripts = "" ∧
    shared_context.focus_group_objectives = "" ∧
    shared_context.final_report = [] ∧
    shared_context.fg_transcripts = none ∧
    shared_context.fg_objectives = none ∧
    shared_context.final_analysis = none ∧
    (∀ (op : Op) (c : Context),
      (applyOp op c).focus_group_transcripts = c.focus_group_transcripts ∧
      (applyOp op c).focus_group_objectives = c.focus_group_objectives ∧
      (applyOp op c).final_report = c.final_report) ∧
    (∀ ops : List Op,
      (run ops shared_context).focus_group_transcripts = "" ∧
      (run ops shared_context).focus_group_objectives = "" ∧
      (run ops shared_context).final_report = []) ∧
    (∀ (fs : String → Option String) (c : Context) (ts os : String),
      fs "data/transcripts.md" = some ts →
      fs "data/objectives.md" = some os →
      (applyOp (Op.readData fs) c).fg_transcripts = some ts ∧
      (applyOp (Op.readData fs) c).fg_objectives = some os) ∧
    (∀ (t ct : String) (c : Context),
      ((finalize_analysis t ct c).context_variables).final_analysis =
        some (FinalAnalysis.model_dump { title := t, content := ct })) := by
  refine ⟨rfl, rfl, rfl, rfl, rfl, rfl, applyOp_frame,
    fun ops => run_frame ops shared_context, ?_, fun t ct c => rfl⟩
  intro fs c ts os hT hO
  constructor
  · simp [applyOp, read_data, hT, hO]
  · simp [applyOp, read_data, hT, hO]

/-- Witness for C10 at a concrete input: on the filesystem where every
path holds the text "text", read_data stores that text under
fg_transcripts and fg_objectives. -/
theorem frame_unused_keys_witness :
    (applyOp (Op.readData fsAll) shared_context).fg_transcripts =
      some "text" ∧
    (applyOp (Op.readData fsAll) shared_context).fg_objectives =
      some "text" :=
  frame_unused_keys.2.2.2.2.2.2.2.2.1 fsAll shared_context "text" "text"
    rfl rfl
